import Mathlib

/-!
Verification of the question-routing / handoff orchestration core of a
FastAPI film-rental backend.  The Python sources are shallowly embedded:
strings are `List Char` (wrapped in `String` at the boundaries), external
collaborator calls (database, language model) are explicit function
parameters, and a raised Python exception is an `Except.error`.

Conventions used throughout the embedding:
  * a Python attribute holding an optional string is modelled as a `String`
    where the empty string stands for `None`/missing (Python truthiness);
  * `Except String α` models a Python call that can raise, the error
    payload being the exception text;
  * characters are compared with Lean `Char` operations; all inputs of
    interest are ASCII, for which `Char.isUpper`/`Char.toLower` agree with
    Python `str.isupper`/`str.lower`.
-/

/-! ## Python string primitives -/

/-- Python whitespace for `str.strip` / `str.split`: space, tab, newline,
carriage return, vertical tab, form feed. -/
def pyIsSpace (c : Char) : Bool :=
  c = ' ' || c = '\t' || c = '\n' || c = '\r' || c = '\x0b' || c = '\x0c'

/-- Python `str.lstrip()` on a character list. -/
def pyLStrip (l : List Char) : List Char := l.dropWhile pyIsSpace

/-- Python `str.rstrip()` on a character list. -/
def pyRStrip (l : List Char) : List Char := (l.reverse.dropWhile pyIsSpace).reverse

/-- Python `str.strip()` on a character list. -/
def pyStrip (l : List Char) : List Char := pyRStrip (pyLStrip l)

/-- Python `str.strip()` on a `String`. -/
def pyStripS (s : String) : String := String.mk (pyStrip s.data)

/-- Python substring test `needle in haystack` (on character lists). -/
def containsSub : List Char → List Char → Bool
  | [], n => n.isPrefixOf []
  | h@(_ :: t), n => n.isPrefixOf h || containsSub t n

/-- Python `str.lower()` (ASCII). -/
def lowerL (l : List Char) : List Char := l.map Char.toLower

/-- The punctuation set of `word.rstrip('.,!?;:')` in `SearchAgent.process`. -/
def isTrailPunct (c : Char) : Bool :=
  c = '.' || c = ',' || c = '!' || c = '?' || c = ';' || c = ':'

/-- Python `word.rstrip('.,!?;:')`. -/
def rstripPunct (l : List Char) : List Char :=
  (l.reverse.dropWhile isTrailPunct).reverse

/-- Python `str.split()` with no argument: split on whitespace runs,
discarding empty pieces.  `acc` is the word currently being collected. -/
def splitWsAux : List Char → List Char → List (List Char)
  | [], acc => if acc = [] then [] else [acc]
  | c :: rest, acc =>
    if pyIsSpace c then
      if acc = [] then splitWsAux rest [] else acc :: splitWsAux rest []
    else
      splitWsAux rest (acc ++ [c])

/-- Python `question.split()`. -/
def pyWords (l : List Char) : List (List Char) := splitWsAux l []

/-- Python `" ".join(words)`. -/
def joinSpace : List (List Char) → List Char
  | [] => []
  | [w] => w
  | w :: rest => w ++ ' ' :: joinSpace rest

/-- Python `text.split('\n')`: split at every newline, keeping empty
pieces. -/
def splitOnNlAux : List Char → List Char → List (List Char)
  | [], acc => [acc]
  | c :: rest, acc =>
    if c = '\n' then acc :: splitOnNlAux rest [] else splitOnNlAux rest (acc ++ [c])

/-- Python `text.split('\n')`. -/
def splitOnNl (l : List Char) : List (List Char) := splitOnNlAux l []

/-- Python `"\n".join(lines)`. -/
def joinNl : List (List Char) → List Char
  | [] => []
  | [w] => w
  | w :: rest => w ++ '\n' :: joinNl rest

/-! ## Title extraction (`SearchAgent.process`, src/app/agents/search_agent.py lines 141-216) -/

/-- Rule 1 (lines 146-148): Python `re.search` of the pattern
quote, one-or-more non-quote characters (captured), quote.
Scanning start positions left to right as the regex engine does: a `"`
followed by a nonempty run of non-quote characters and a closing `"`
yields that run; an adjacent pair of quotes cannot match (the character
class needs at least one character), so the scan resumes at the next
position. -/
def findQuoted : List Char → Option (List Char)
  | [] => none
  | c :: rest =>
    if c = '"' then
      let content := rest.takeWhile (fun x => x ≠ '"')
      match rest.dropWhile (fun x => x ≠ '"') with
      | '"' :: _ => if content = [] then findQuoted rest else some content
      | _ => findQuoted rest
    else findQuoted rest

/-- Case-insensitive literal prefix match (for `re.IGNORECASE`). -/
def isPrefixCI : List Char → List Char → Bool
  | [], _ => true
  | _ :: _, [] => false
  | p :: ps, c :: cs => (p.toLower = c.toLower) && isPrefixCI ps cs

/-- Characters admitted by the regex class of the rule-2 captured group:
ASCII letters and whitespace. -/
def isAlphaOrSpace (c : Char) : Bool := c.isAlpha || pyIsSpace c

/-- The trailing stop words of the rule-2 pattern. -/
def rule2StopWords : List (List Char) :=
  ["rental".data, "rate".data, "is".data, "the".data, "what".data, "about".data]

/-- The rule-2 terminator alternation: a punctuation character `?.,!;:`,
end of input, or one-or-more whitespace characters followed by one of the
stop words (case-insensitively; the pattern has no word boundary, so a
stop word matches as a bare prefix). -/
def rule2Terminator (l : List Char) : Bool :=
  match l with
  | [] => true
  | c :: _ =>
    if c = '?' || c = '.' || c = ',' || c = '!' || c = ';' || c = ':' then true
    else
      let ws := l.takeWhile pyIsSpace
      let rest := l.drop ws.length
      !ws.isEmpty && rule2StopWords.any (fun w => isPrefixCI w rest)

/-- The lazy one-or-more group of the rule-2 pattern: grow the collected
run one character at a time, accepting as soon as the terminator matches
after it. -/
def rule2LazyGroup (acc : List Char) : List Char → Option (List Char)
  | [] => if rule2Terminator [] then some acc else none
  | c :: rest =>
    if rule2Terminator (c :: rest) then some acc
    else if isAlphaOrSpace c then rule2LazyGroup (acc ++ [c]) rest
    else none

/-- One start position of the rule-2 pattern (line 153): keyword
`film`/`movie` (case-insensitive), one or more whitespace characters, a
leading letter (the class `[A-Z]` under `re.IGNORECASE` admits any ASCII
letter), then the lazy group up to the terminator; the captured group is
finally stripped (line 155). -/
def rule2TryAt (l : List Char) : Option (List Char) :=
  let afterKw :=
    if isPrefixCI "film".data l then some (l.drop 4)
    else if isPrefixCI "movie".data l then some (l.drop 5)
    else none
  match afterKw with
  | none => none
  | some rest =>
    let ws := rest.takeWhile pyIsSpace
    if ws.isEmpty then none
    else
      match rest.drop ws.length with
      | [] => none
      | c :: tail =>
        if c.isAlpha then
          match tail with
          | [] => none
          | d :: tail2 =>
            if isAlphaOrSpace d then
              match rule2LazyGroup [d] tail2 with
              | some grp => some (pyStrip (c :: grp))
              | none => none
            else none
        else none

/-- Rule 2 (lines 150-155): `re.search` of the film/movie pattern, trying
each start position left to right. -/
def rule2Search : List Char → Option (List Char)
  | [] => none
  | l@(_ :: rest) =>
    match rule2TryAt l with
    | some t => some t
    | none => rule2Search rest

/-- Python `word_clean and word_clean[0].isupper()`. -/
def startsUpper : List Char → Bool
  | [] => false
  | c :: _ => c.isUpper

/-- The `skip_words` set of rules 3 and 4 (lines 161 and 188; the source
line 188 repeats `of`, `this`, `movie`, which a Python set collapses). -/
def skipWords3 : List (List Char) :=
  ["what".data, "is".data, "the".data, "rental".data, "rate".data, "for".data,
   "film".data, "movie".data, "of".data, "a".data, "an".data, "about".data,
   "tell".data, "me".data, "this".data, "that".data]

/-- Rule 3 (lines 157-182): collect capitalized words among the first five
words (and continue a run already started), stopping at a stop word or a
non-capitalized word once collection has begun. -/
def rule3Go : List (List Char) → Nat → List (List Char) → List (List Char)
  | [], _, acc => acc
  | w :: rest, i, acc =>
    let c := rstripPunct w
    if decide (i < 5) && startsUpper c then
      if !(skipWords3.contains (lowerL c)) then rule3Go rest (i + 1) (acc ++ [c])
      else if !acc.isEmpty then acc
      else rule3Go rest (i + 1) acc
    else if !acc.isEmpty then
      if startsUpper c && !(skipWords3.contains (lowerL c)) then rule3Go rest (i + 1) (acc ++ [c])
      else acc
    else rule3Go rest (i + 1) acc

/-- Rule 4 (lines 184-204): collect capitalized words anywhere in the
question, skipping stop words, stopping at the first other lowercase word
once collection has begun. -/
def rule4Go : List (List Char) → List (List Char) → List (List Char)
  | [], acc => acc
  | w :: rest, acc =>
    let c := rstripPunct w
    if skipWords3.contains (lowerL c) then rule4Go rest acc
    else if startsUpper c then rule4Go rest (acc ++ [c])
    else if !acc.isEmpty && !c.isEmpty then
      if !(skipWords3.contains (lowerL c)) then acc else rule4Go rest acc
    else rule4Go rest acc

/-- The `skip_words` set of the single-word rule (line 209). -/
def skipWords5 : List (List Char) :=
  ["what".data, "is".data, "the".data, "rental".data, "rate".data, "for".data,
   "film".data, "movie".data, "of".data, "a".data, "an".data, "about".data,
   "tell".data, "me".data, "i".data, "you".data, "can".data, "help".data,
   "this".data, "that".data]

/-- Rule 5 (lines 206-216): the first capitalized word of length greater
than two that is not a stop word. -/
def rule5Find : List (List Char) → Option (List Char)
  | [] => none
  | w :: rest =>
    let c := rstripPunct w
    if startsUpper c && !(skipWords5.contains (lowerL c)) && decide (c.length > 2) then some c
    else rule5Find rest

/-- Title extraction of `SearchAgent.process` (lines 141-216): the five
rules in precedence order, first success wins; rules 3 and 4 join the
collected words with single spaces (lines 182, 204). -/
def extractTitleL (q : List Char) : Option (List Char) :=
  match findQuoted q with
  | some t => some t
  | none =>
    match rule2Search q with
    | some t => some t
    | none =>
      let words := pyWords q
      let r3 := rule3Go words 0 []
      if !r3.isEmpty then some (joinSpace r3)
      else
        let r4 := rule4Go words []
        if !r4.isEmpty then some (joinSpace r4)
        else rule5Find words

/-- Title extraction on `String`s. -/
def extractTitle (q : String) : Option String :=
  (extractTitleL q.data).map String.mk

/-! ## Catalog lookup (`FilmRepository.search_by_title_with_category`,
src/domain/repositories/film_repository.py lines 315-360) -/

/-- One row of the `film`-with-category query result as the repository
returns it (lines 352-359).  `rental_rate` is the `NUMERIC(4,2)` column in
cents: every value the column can hold is an exact multiple of 0.01, so
the integer cent count carries the same information as the Python float.
`rating` is `none` when the column is NULL/falsy (line 357); `category`
already holds the `or "Unknown"` default of line 355. -/
structure FilmRow where
  title : String
  description : String
  category : String
  rental_rate : Nat
  rating : Option String
  release_year : Option Nat
deriving DecidableEq, Repr

/-- The SQL filter of line 343, `LOWER(film.title) LIKE LOWER(:pattern)`
with the pattern wrapped in percent wildcards (line 348): case-insensitive
substring containment (no other LIKE metacharacter occurs in the titles
considered here). -/
def likeTitleMatch (rowTitle : String) (title : String) : Bool :=
  containsSub (lowerL rowTitle.data) (lowerL title.data)

/-- The repository search: first matching row of the catalog (`LIMIT 1`,
line 344, over the list order), or `none` (line 360). -/
def search_by_title_with_category (catalog : List FilmRow) (title : String) :
    Option FilmRow :=
  catalog.find? (fun row => likeTitleMatch row.title title)

/-! ## `SearchAgent.process` (src/app/agents/search_agent.py lines 126-255) -/

/-- Python `f-string` formatting of the rental rate, `${rate:.2f}`
(line 242), on the cent count: dollars, a dot, and the zero-padded cents.
For every exact two-decimal value (all that `NUMERIC(4,2)` can hold) this
is the text the Python float format produces. -/
def formatRate (cents : Nat) : String :=
  let c := cents % 100
  toString (cents / 100) ++ "." ++ (if c < 10 then "0" else "") ++ toString c

/-- Post-processing of `SearchAgent._generate_film_summary`
(lines 110-118): the invocation of the kernel summary function and the
unwrapping of its response object are abstracted as the collaborator
function `invokeSummary`; a raised collaborator exception is re-raised
(lines 120-124).  The extracted text is stripped and a leading markdown
code fence causes the first and last lines to be dropped (when there are
more than two lines). -/
def generate_film_summary (invokeSummary : FilmRow → Except String String)
    (info : FilmRow) : Except String String :=
  match invokeSummary info with
  | Except.error e => Except.error e
  | Except.ok raw =>
    let summary := pyStrip raw.data
    let summary :=
      if "```".data.isPrefixOf summary then
        let lines := splitOnNl summary
        if decide (lines.length > 2) then joinNl (lines.drop 1).dropLast else summary
      else summary
    Except.ok (String.mk summary)

/-- Keyword test of line 233: `"rating" in q or "rated" in q` on the
lowercased question. -/
def ratingIntent (q : String) : Bool :=
  containsSub (lowerL q.data) "rating".data || containsSub (lowerL q.data) "rated".data

/-- Keyword test of line 240: `"rental" in q or ("rate" in q and "rental"
in q) or "cost" in q or "price" in q` on the lowercased question. -/
def rentalIntent (q : String) : Bool :=
  containsSub (lowerL q.data) "rental".data ||
    (containsSub (lowerL q.data) "rate".data && containsSub (lowerL q.data) "rental".data) ||
    containsSub (lowerL q.data) "cost".data ||
    containsSub (lowerL q.data) "price".data

/-- Keyword test of line 243: `"category" in q` on the lowercased
question. -/
def categoryIntent (q : String) : Bool :=
  containsSub (lowerL q.data) "category".data

/-- `SearchAgent.process` (lines 126-255).  `invokeSummary` stands for the
kernel call inside `_generate_film_summary`; `Except.ok none` is the
Python `return None` of lines 220 and 227; `Except.error` is a raised
exception. -/
def SearchAgent_process (invokeSummary : FilmRow → Except String String)
    (catalog : List FilmRow) (question : String) :
    Except String (Option String) :=
  match extractTitle question with
  | none => Except.ok none
  | some film_title =>
    match search_by_title_with_category catalog film_title with
    | none => Except.ok none
    | some film_info =>
      if ratingIntent question then
        match film_info.rating with
        | some rating => Except.ok (some (film_info.title ++ " is rated " ++ rating ++ "."))
        | none => Except.ok (some (film_info.title ++ " does not have a rating available."))
      else if rentalIntent question then
        Except.ok (some (film_info.title ++ " rents for $" ++ formatRate film_info.rental_rate ++ "."))
      else if categoryIntent question then
        Except.ok (some (film_info.title ++ " is in the " ++ film_info.category ++ " category."))
      else
        match generate_film_summary invokeSummary film_info with
        | Except.ok summary => Except.ok (some summary)
        | Except.error e => Except.error e

/-! ## `LLMAgent.process` (src/app/agents/llm_agent.py lines 36-158) -/

/-- A choice of an OpenAI-style `inner_content.choices` list: a `message`
carrying a `content` attribute, a bare `text` attribute, or neither
(lines 98-107 and 128-135). -/
inductive SKChoice where
  | message (content : String)
  | text (t : String)
  | neither
deriving DecidableEq, Repr

/-- One response element as `LLMAgent.process` probes it: the texts of the
`items` attribute, the `content` attribute, the optional
`inner_content.choices` chain, the `text` attribute (the empty string
standing for an absent or falsy attribute), and its `str()` rendering. -/
structure SKItem where
  items : List String
  content : String
  innerChoices : Option (List SKChoice)
  text : String
  strRepr : String
deriving DecidableEq, Repr

/-- The `response.value` attribute: a list of elements or a single one
(the `isinstance(response_value, list)` test of line 81). -/
inductive SKValue where
  | listVal (elems : List SKItem)
  | single (elem : SKItem)
deriving DecidableEq, Repr

/-- The kernel response: an object with a `value` attribute, or a plain
object whose `str()` is taken (lines 77 and 144-145). -/
inductive SKResponse where
  | withValue (v : SKValue)
  | plain (strRepr : String)
deriving DecidableEq, Repr

/-- First nonempty text among `item.items` (lines 84-90 and 117-121). -/
def firstItemText : List String → Option String
  | [] => none
  | t :: rest => if t ≠ "" then some t else firstItemText rest

/-- The first choice of `inner_content.choices` when the attribute chain
is present and the list nonempty (lines 98-100 and 128-130). -/
def innerFirstChoice : Option (List SKChoice) → Option SKChoice
  | some (c :: _) => some c
  | _ => none

/-- The per-element ladder of the list branch (lines 82-112): `items`
texts, then `content`, then the first `inner_content` choice (whose
assignment breaks the loop even when the text is empty), then `text`; on
failure move to the next element. -/
def llmExtractList : List SKItem → Option String
  | [] => none
  | it :: rest =>
    match firstItemText it.items with
    | some t => some t
    | none =>
      if it.content ≠ "" then some it.content
      else
        match innerFirstChoice it.innerChoices with
        | some (SKChoice.message c) => some c
        | some (SKChoice.text t) => some t
        | _ => if it.text ≠ "" then some it.text else llmExtractList rest

/-- The single-object ladder (lines 115-139): `items` texts, `content`,
the first `inner_content` choice, then the `text` attribute; here an
empty choice text lets the `text` fallback of line 138 run (there is no
loop to break). -/
def llmExtractSingle (it : SKItem) : Option String :=
  match firstItemText it.items with
  | some t => some t
  | none =>
    if it.content ≠ "" then some it.content
    else
      let fromChoice :=
        match innerFirstChoice it.innerChoices with
        | some (SKChoice.message c) => c
        | some (SKChoice.text t) => t
        | _ => ""
      if fromChoice ≠ "" then some fromChoice
      else if it.text ≠ "" then some it.text
      else none

/-- The last resort of lines 141-143: `str(response_value)` for a single
object, `str(response_value[0])` for a nonempty list, the empty string
for an empty list. -/
def llmLastResort : SKValue → String
  | SKValue.single it => it.strRepr
  | SKValue.listVal [] => ""
  | SKValue.listVal (it :: _) => it.strRepr

/-- `LLMAgent.process` (lines 36-158).  The kernel invocation and its
response are the `invokeResult` argument; every Python `return` of a
string is `some`, so a `none` would model returning `None`; the `except`
arm of lines 153-158 converts any raised exception into an apologetic
string. -/
def LLMAgent_process (invokeResult : Except String SKResponse) : Option String :=
  match invokeResult with
  | Except.error e => some ("I\x27m sorry, I encountered an error: " ++ e)
  | Except.ok resp =>
    match resp with
    | SKResponse.plain r => some r
    | SKResponse.withValue v =>
      let answer : Option String :=
        match v with
        | SKValue.listVal elems => llmExtractList elems
        | SKValue.single it => llmExtractSingle it
      match answer with
      | none => some (llmLastResort v)
      | some a => if a = "" then some (llmLastResort v) else some a

/-! ## The deterministic fallback router and the custom orchestrator

The route handler of `src/api/v1/ai_routes.py` line 136 instantiates a
class `HandoffOrchestration(search_agent, llm_agent)` with a custom
`process` method, and `src/tests/test_ai.py` exercises it through
`POST /api/v1/ai/handoff`; the class itself is absent from `src/`
(`app.agents` does not define it).  Its routing rule and sequencing are
therefore modelled from the spec (sections 4.4 and 6), while the two
handlers it drives are the `SearchAgent.process` and `LLMAgent.process`
embeddings above. -/

/-- The two routing targets of the spec data model (`RoutingDecision`). -/
inductive Handler where
  | FilmHandler
  | GeneralHandler
deriving DecidableEq, Repr

/-- The externally visible output value of the core (`AgentAnswer`). -/
structure AgentAnswer where
  agent : Handler
  answer : String
deriving DecidableEq, Repr

/-- A word that counts as capitalized for the fallback router: its cleaned
form starts with an uppercase letter and its lowercase form is outside the
common stop-word set. -/
def capitalizedNonStop (w : List Char) : Bool :=
  let c := rstripPunct w
  startsUpper c && !(skipWords3.contains (lowerL c))

/-- Modelled from the spec: the deterministic fallback routing rule of the
missing `HandoffOrchestration` class (spec section 4.4) — route to
FilmHandler if the question contains `film`/`movie` (case-insensitive) or
contains at least one capitalized word outside common stop-words;
otherwise route to GeneralHandler. -/
def routeFallback (q : String) : Handler :=
  if containsSub (lowerL q.data) "film".data ||
      containsSub (lowerL q.data) "movie".data ||
      (pyWords q.data).any capitalizedNonStop then
    Handler.FilmHandler
  else
    Handler.GeneralHandler

/-- Modelled from the spec: the `process` method of the missing
`HandoffOrchestration` class (spec sections 4.4 and 6).  The fallback
route is applied (the optional AI-assisted classification is absent, a
supported mode); a FilmHandler choice executes `SearchAgent.process` and
hands off to the general handler when it returns `None`; a handler
exception is caught at the orchestrator boundary and converted into a
GeneralHandler-labeled apologetic answer; the general handler's text is
`LLMAgent.process`'s result. -/
def HandoffOrchestration_process (invokeSummary : FilmRow → Except String String)
    (llm : String → Except String SKResponse) (catalog : List FilmRow)
    (question : String) : AgentAnswer :=
  let general : AgentAnswer :=
    { agent := Handler.GeneralHandler
      answer := (LLMAgent_process (llm question)).getD "" }
  match routeFallback question with
  | Handler.GeneralHandler => general
  | Handler.FilmHandler =>
    match SearchAgent_process invokeSummary catalog question with
    | Except.ok (some answer) => { agent := Handler.FilmHandler, answer := answer }
    | Except.ok none => general
    | Except.error _ =>
      { agent := Handler.GeneralHandler
        answer := "I\x27m sorry, I encountered an error processing your request." }

/-! ## The response-callback tracker and `HandoffService.process_question`
(src/app/agents/orchestration.py lines 74-197 and
src/domain/services/handoff_service.py lines 34-278) -/

/-- One element of `ChatMessageContent.items` as the callbacks probe it
(`text` and `content` attributes; a mapping item with `text`/`content`
keys, lines 123-128 of orchestration.py, behaves identically). -/
structure ChatItem where
  text : String
  content : String
deriving DecidableEq, Repr

/-- A `ChatMessageContent` as the callback and the extraction helpers
probe it: `name` (the empty string standing for `None`), `role` (its
string value), the `content`, `text` and `items` attributes, its `str()`
rendering and the name of its Python type. -/
structure ChatMessage where
  name : String
  role : String
  content : String
  text : String
  items : List ChatItem
  strRepr : String
  typeName : String
deriving DecidableEq, Repr

/-- The item scan of orchestration.py lines 113-130: the first item with a
nonempty `text` or `content` attribute yields its stripped text (the loop
breaks there even when the stripped text is empty). -/
def cbItemsExtract : List ChatItem → String
  | [] => ""
  | it :: rest =>
    if it.text ≠ "" then pyStripS it.text
    else if it.content ≠ "" then pyStripS it.content
    else cbItemsExtract rest

/-- Content extraction of the response callback (orchestration.py lines
89-130): the `content` attribute, then `text`, then the items scan; each
candidate is stripped, and a candidate that strips to the empty string
lets the next source run. -/
def cbExtractContent (m : ChatMessage) : String :=
  let c := if m.content ≠ "" then pyStripS m.content else ""
  let c := if c = "" ∧ m.text ≠ "" then pyStripS m.text else c
  if c = "" then cbItemsExtract m.items else c

/-- The mutable `agent_tracker` dict of `create_handoff_orchestration`
(orchestration.py lines 74-80). -/
structure AgentTracker where
  last_agent : String
  response_received : Bool
  human_response_calls : Nat
  last_agent_response : Option String
  should_stop : Bool
deriving DecidableEq, Repr

/-- The tracker's initial state (orchestration.py lines 74-80):
`last_agent` starts as the search agent's name. -/
def initTracker : AgentTracker :=
  { last_agent := "SearchAgent"
    response_received := false
    human_response_calls := 0
    last_agent_response := none
    should_stop := false }

/-- The state update of `agent_response_callback` (orchestration.py lines
83-164): the last agent becomes the message's name (`"Unknown"` when
absent); an assistant message with nonempty extracted content that is not
a completion or handoff marker is stored as the response — but only the
first such message is kept. -/
def agent_response_callback (t : AgentTracker) (m : ChatMessage) : AgentTracker :=
  let agent_name := if m.name ≠ "" then m.name else "Unknown"
  let t := { t with last_agent := agent_name }
  let content := cbExtractContent m
  let role_is_assistant := m.role = "assistant"
  if role_is_assistant ∧ content ≠ "" ∧ pyStripS content ≠ "" ∧
      ¬("Task is completed".data.isPrefixOf content.data = true) ∧
      ¬("__CONVERSATION_COMPLETE__".data.isPrefixOf content.data = true) ∧
      ¬("Handoff-".data.isPrefixOf content.data = true) ∧
      ¬(containsSub content.data "Handoff-complete_task".data = true) then
    if t.last_agent_response = none then
      { t with
        last_agent_response := some content
        response_received := true
        should_stop := true }
    else t
  else t

/-- Folding the callback over the messages the runtime delivers, in
order. -/
def runTracker (msgs : List ChatMessage) : AgentTracker :=
  msgs.foldl agent_response_callback initTracker

/-- The accumulating item scan of `HandoffService._extract_from_message`
(handoff_service.py lines 244-264): append the first nonempty `text` or
`content` of each item, stopping once the accumulated text strips
nonempty. -/
def hsItemsAccum : List ChatItem → String → String
  | [], acc => acc
  | it :: rest, acc =>
    let acc := if it.text ≠ "" then acc ++ it.text
               else if it.content ≠ "" then acc ++ it.content
               else acc
    if pyStripS acc ≠ "" then acc else hsItemsAccum rest acc

/-- `HandoffService._extract_from_message` (handoff_service.py lines
215-278): `content`, then `text`, then the accumulated items, then —
unless the object's type name mentions `OrchestrationResult` or `Task` —
its `str()` rendering; the result is stripped. -/
def _extract_from_message (m : ChatMessage) : String :=
  let answer := if m.content ≠ "" then m.content else ""
  let answer := if answer = "" ∧ m.text ≠ "" then m.text else answer
  let answer := if answer = "" ∧ m.items ≠ [] then hsItemsAccum m.items "" else answer
  let answer :=
    if answer = "" then
      if ¬(containsSub m.typeName.data "OrchestrationResult".data = true) ∧
          ¬(containsSub m.typeName.data "Task".data = true) then m.strRepr
      else answer
    else answer
  if answer ≠ "" then pyStripS answer else ""

/-- The `final_value` returned by `orchestration_result.get()`: a list of
messages, a single message, or a falsy value. -/
inductive FinalValue where
  | listVal (msgs : List ChatMessage)
  | single (m : ChatMessage)
  | noneVal
deriving DecidableEq, Repr

/-- `HandoffService._extract_answer` (handoff_service.py lines 177-213):
a falsy or empty value yields the empty string, a list is represented by
its last message. -/
def _extract_answer : FinalValue → String
  | FinalValue.noneVal => ""
  | FinalValue.listVal msgs =>
    match msgs.getLast? with
    | some m => _extract_from_message m
    | none => ""
  | FinalValue.single m => _extract_from_message m

/-- How the awaited orchestration run ends: natural completion with a
final value, `asyncio.TimeoutError`, or another exception (carrying its
text). -/
inductive OrchOutcome where
  | completed (fv : FinalValue)
  | timedOut
  | failed (e : String)
deriving DecidableEq, Repr

/-- The dictionary `HandoffService.process_question` returns. -/
structure HandoffResult where
  agent : String
  answer : String
deriving DecidableEq, Repr

/-- The body of `HandoffService.process_question` once the orchestration
exists (handoff_service.py lines 58-166).  The callback trace determines
the tracker; a timeout or exception inside the inner `try` falls back to
the tracker's captured response labeled with the tracker's last agent,
else to a fixed apologetic answer labeled `"SearchAgent"` (lines 85-114);
natural completion prefers the tracker's first stored response over the
extracted final value and labels the result with the tracker's last agent
(lines 116-150). -/
def process_question_body (msgs : List ChatMessage) (outcome : OrchOutcome) :
    HandoffResult :=
  let t := runTracker msgs
  match outcome with
  | OrchOutcome.timedOut =>
    match t.last_agent_response with
    | some a => { agent := t.last_agent, answer := pyStripS a }
    | none =>
      { agent := "SearchAgent"
        answer := "I\x27m sorry, the request timed out. Please try again." }
  | OrchOutcome.failed _ =>
    match t.last_agent_response with
    | some a => { agent := t.last_agent, answer := pyStripS a }
    | none =>
      { agent := "SearchAgent"
        answer := "I\x27m sorry, I encountered an error processing your request." }
  | OrchOutcome.completed fv =>
    let agent_name := t.last_agent
    let answer :=
      match t.last_agent_response with
      | some a => if a ≠ "" ∧ pyStripS a ≠ "" then a else _extract_answer fv
      | none => _extract_answer fv
    let answer :=
      if answer = "" ∨ pyStripS answer = "" then
        "I\x27m sorry, I couldn\x27t generate a response."
      else answer
    { agent := agent_name, answer := pyStripS answer }

/-- The attributes `SearchAgent.__init__` binds on the wrapper
(search_agent.py lines 38-47); there is no `agent` among them. -/
def searchAgentAttributes : List String :=
  ["repository", "logger", "name", "description", "kernel"]

/-- The attributes `LLMAgent.__init__` binds on the wrapper (llm_agent.py
lines 31-34); there is no `agent` among them. -/
def llmAgentAttributes : List String :=
  ["kernel", "logger", "name", "description"]

/-- Python attribute access: a missing attribute raises
`AttributeError`. -/
def pyGetattr (attrs : List String) (name : String) : Except String Unit :=
  if name ∈ attrs then Except.ok () else Except.error ("AttributeError: " ++ name)

/-- The wrapper dereferences of `create_handoff_orchestration`
(orchestration.py lines 40-41): `search_agent_wrapper.agent` and
`llm_agent_wrapper.agent`. -/
def create_handoff_orchestration_access : Except String Unit :=
  match pyGetattr searchAgentAttributes "agent" with
  | Except.error e => Except.error e
  | Except.ok _ => pyGetattr llmAgentAttributes "agent"

/-- `HandoffService.process_question` (handoff_service.py lines 34-175):
the orchestration is created at line 56, before the `try` of line 62, so
an exception raised during creation propagates out of the method;
otherwise the guarded body runs and returns. -/
def HandoffService_process_question (msgs : List ChatMessage)
    (outcome : OrchOutcome) : Except String HandoffResult :=
  match create_handoff_orchestration_access with
  | Except.error e => Except.error e
  | Except.ok _ => Except.ok (process_question_body msgs outcome)

/-! ## Defensive JSON extraction (`AIService.get_film_summary`,
src/domain/services/ai_service.py lines 219-248) -/

/-- Python `list.rfind`-style suffix keep: everything through the last
occurrence of `c`, the whole list when `c` does not occur. -/
def keepThroughLast (c : Char) (l : List Char) : List Char :=
  (l.reverse.dropWhile (fun x => x ≠ c)).reverse

/-- The search of line 233, a regex looking for an opening brace, a run of
non-brace characters containing the quoted key `title`, and a closing
brace; start positions are tried left to right.  At an opening brace the
run of non-brace characters that follows must be closed by a closing
brace and contain `"title"` for the position to match. -/
def titleObjSearch : List Char → Option (List Char)
  | [] => none
  | c :: rest =>
    if c = '\x7b' then
      let run := rest.takeWhile (fun x => x ≠ '\x7b' ∧ x ≠ '\x7d')
      match rest.dropWhile (fun x => x ≠ '\x7b' ∧ x ≠ '\x7d') with
      | '\x7d' :: _ =>
        if containsSub run "\"title\"".data then some ( '\x7b' :: run ++ ['\x7d'])
        else titleObjSearch rest
      | _ => titleObjSearch rest
    else titleObjSearch rest

/-- The fence removal of lines 222-228: a leading three-backtick fence
(with or without the `json` tag) is cut and the text re-stripped. -/
def stripFencePrefix (l : List Char) : List Char :=
  if "```json".data.isPrefixOf l then pyStrip (l.drop 7)
  else if "```".data.isPrefixOf l then pyStrip (l.drop 3)
  else l

/-- The trailing fence removal of lines 227-228. -/
def stripFenceSuffix (l : List Char) : List Char :=
  if "```".data.isSuffixOf l then pyStrip (l.take (l.length - 3)) else l

/-- Lines 238-241: when the text does not already start with an opening
brace, cut everything before the first opening brace (`find` returning
`-1`, i.e. no brace at all, leaves the text unchanged). -/
def cutToOpen (r : List Char) : List Char :=
  if r.head? = some '\x7b' then r
  else if r.contains '\x7b' then r.dropWhile (fun x => x ≠ '\x7b') else r

/-- Lines 243-246: when the text does not already end with a closing
brace, cut everything after the last closing brace (`rfind` returning
`-1` leaves the text unchanged). -/
def cutToClose (r : List Char) : List Char :=
  if r.getLast? = some '\x7d' then r
  else if r.contains '\x7d' then keepThroughLast '\x7d' r else r

/-- The defensive JSON-locating pipeline of `AIService.get_film_summary`
(lines 219-248), up to the `json.loads` call: strip, remove markdown code
fences, prefer a brace-delimited run containing the key `title`, else cut
to the first opening brace and the last closing brace, and strip again. -/
def extractJsonText (raw : List Char) : List Char :=
  let r := pyStrip raw
  let r := stripFencePrefix r
  let r := stripFenceSuffix r
  let r := match titleObjSearch r with
           | some m => m
           | none => r
  let r := cutToOpen r
  let r := cutToClose r
  pyStrip r

/-- The same pipeline on `String`s. -/
def extractJsonTextS (raw : String) : String :=
  String.mk (extractJsonText raw.data)

/-- The shape of a reply whose JSON payload is surrounded by extraneous
text: a brace-free prefix, a single brace-delimited brace-free payload
body, and a brace-free suffix.  Every step of the extraction pipeline
preserves this decomposition. -/
def TwoBrace (s mid : List Char) : Prop :=
  ('\x7b' ∉ mid ∧ '\x7d' ∉ mid) ∧
    ∃ a b, ('\x7b' ∉ a ∧ '\x7d' ∉ a) ∧ ('\x7b' ∉ b ∧ '\x7d' ∉ b) ∧
      s = a ++ '\x7b' :: (mid ++ '\x7d' :: b)

/-! ## Concrete fixtures -/

/-- The catalog row of the spec scenario: Alien, Horror, rental rate 2.99
(299 cents). -/
def alienRow : FilmRow :=
  { title := "Alien"
    description := "A mining ship investigates a distress signal."
    category := "Horror"
    rental_rate := 299
    rating := some "R"
    release_year := some 1979 }

/-- A one-row catalog holding the Alien fact. -/
def alienCatalog : List FilmRow := [alienRow]

/-- A trace message in which the film-search agent announces a failed
lookup and the coming transfer; it passes every filter of the callback, so
it is stored as the first response. -/
def searchTransferMsg : ChatMessage :=
  { name := "SearchAgent"
    role := "assistant"
    content := "I could not find that film in the database, transferring you to LLMAgent."
    text := ""
    items := []
    strRepr := ""
    typeName := "ChatMessageContent" }

/-- A trace message carrying the general handler's actual answer. -/
def llmAnswerMsg : ChatMessage :=
  { name := "LLMAgent"
    role := "assistant"
    content := "Paris is the capital of France."
    text := ""
    items := []
    strRepr := ""
    typeName := "ChatMessageContent" }

/-! ## The `app.agents` package namespace and the import in `ai_routes`

`src/app/agents/__init__.py` binds exactly these names in the package
namespace (the three re-exported symbols, the three submodules, and
`__all__`); `src/api/v1/ai_routes.py` line 29 runs
`from app.agents import HandoffOrchestration, SearchAgent, LLMAgent`. -/

/-- Names bound in the `app.agents` package namespace by
`src/app/agents/__init__.py` (its imports, submodules, and `__all__`). -/
def appAgentsNamespace : List String :=
  ["SearchAgent", "LLMAgent", "create_handoff_orchestration",
   "search_agent", "llm_agent", "orchestration", "__all__"]

/-- The `__all__` list of `src/app/agents/__init__.py` (line 16). -/
def appAgentsAll : List String :=
  ["SearchAgent", "LLMAgent", "create_handoff_orchestration"]

/-- The names `src/api/v1/ai_routes.py` line 29 requests from `app.agents`. -/
def aiRoutesImportsFromAppAgents : List String :=
  ["HandoffOrchestration", "SearchAgent", "LLMAgent"]

/-- Python `from M import a, b, ...`: the first requested name missing from
the module namespace raises `ImportError` and module loading fails. -/
def pythonFromImport (moduleNames : List String) : List String → Except String Unit
  | [] => Except.ok ()
  | n :: rest =>
    if n ∈ moduleNames then pythonFromImport moduleNames rest
    else Except.error ("ImportError: cannot import name " ++ n)

/-- C3.  The module `api.v1.ai_routes` requests `HandoffOrchestration` from
`app.agents`, whose namespace holds only `SearchAgent`, `LLMAgent`,
`create_handoff_orchestration` (plus submodule names and `__all__`); the
statement therefore raises `ImportError`, so the module never loads and the
`POST /handoff` route handler defined in it cannot execute for any
request. -/
theorem ai_routes_import_fails :
    pythonFromImport appAgentsNamespace aiRoutesImportsFromAppAgents =
      Except.error ("ImportError: cannot import name " ++ "HandoffOrchestration") ∧
    "HandoffOrchestration" ∈ aiRoutesImportsFromAppAgents ∧
    "HandoffOrchestration" ∉ appAgentsNamespace ∧
    "HandoffOrchestration" ∉ appAgentsAll := by
  refine ⟨rfl, ?_, ?_, ?_⟩ <;> decide

/-- C2.  The claim says no input makes `process_question` raise and that
handler errors are caught and returned as GeneralHandler-labeled
apologetic answers.  The code instead raises `AttributeError` for every
input: `create_handoff_orchestration` dereferences
`search_agent_wrapper.agent` (orchestration.py line 40), an attribute
`SearchAgent.__init__` never binds, and the call happens at
handoff_service.py line 56, before the `try` block, so the exception
propagates (the repo's own tests expect HTTP 200 from `/handoff`).
Moreover, an error that the inner `try` does catch with no captured
response is labeled `"SearchAgent"`, not the general handler. -/
theorem process_question_always_raises :
    (∀ (msgs : List ChatMessage) (outcome : OrchOutcome),
      HandoffService_process_question msgs outcome =
        Except.error ("AttributeError: " ++ "agent")) ∧
    process_question_body [] (OrchOutcome.failed "boom") =
      { agent := "SearchAgent"
        answer := "I\x27m sorry, I encountered an error processing your request." } :=
  ⟨fun _ _ => rfl, rfl⟩

/-- Helper: the response callback always overwrites `last_agent` with the
message's name (`"Unknown"` when absent), in the storing and the
non-storing branch alike. -/
theorem callback_last_agent (t : AgentTracker) (m : ChatMessage) :
    (agent_response_callback t m).last_agent =
      (if m.name ≠ "" then m.name else "Unknown") := by
  unfold agent_response_callback
  dsimp only
  split
  · split <;> rfl
  · rfl

/-- Helper: the natural-completion branch labels the result with the
tracker's last agent. -/
theorem completed_agent_eq (msgs : List ChatMessage) (fv : FinalValue) :
    (process_question_body msgs (OrchOutcome.completed fv)).agent =
      (runTracker msgs).last_agent := rfl

/-- C1 counterexample.  A trace in which the film handler's chatty
failed-lookup message precedes the general handler's answer: the callback
stores the first valid assistant response (the search agent's text) while
`last_agent` follows every message, so the completed run returns the film
handler's text labeled `"LLMAgent"` — `agent` does not name the agent
whose text is returned. -/
theorem tracker_label_counterexample :
    process_question_body [searchTransferMsg, llmAnswerMsg]
        (OrchOutcome.completed FinalValue.noneVal) =
      { agent := "LLMAgent"
        answer := "I could not find that film in the database, transferring you to LLMAgent." } ∧
    searchTransferMsg.name = "SearchAgent" ∧
    ("SearchAgent" : String) ≠ "LLMAgent" := by
  refine ⟨by decide, rfl, by decide⟩

/-- C1 amended.  On natural completion the returned `agent` equals the
agent name attached to the last callback message (or `"Unknown"`),
independent of which handler's text is stored and returned; it equals the
general handler exactly when the general handler's message arrives last. -/
theorem final_agent_is_last_message_name (msgs : List ChatMessage)
    (m : ChatMessage) (fv : FinalValue) :
    (process_question_body (msgs ++ [m]) (OrchOutcome.completed fv)).agent =
      (if m.name ≠ "" then m.name else "Unknown") := by
  rw [completed_agent_eq]
  unfold runTracker
  rw [List.foldl_append]
  simp only [List.foldl]
  exact callback_last_agent _ m

/-- C5.  spec-modelled: for the deterministic fallback router, a question
with no capitalized word and no `film`/`movie` occurrence routes to
GeneralHandler and the orchestrator returns the general handler's answer;
conversely a `film`/`movie` occurrence or a capitalized word outside the
stop-word set routes to FilmHandler first. -/
theorem fallback_routing_decision :
    (∀ q : String,
      (pyWords q.data).all (fun w => !(startsUpper (rstripPunct w))) = true →
      containsSub (lowerL q.data) "film".data = false →
      containsSub (lowerL q.data) "movie".data = false →
      routeFallback q = Handler.GeneralHandler ∧
      ∀ (invokeSummary : FilmRow → Except String String)
        (llm : String → Except String SKResponse) (catalog : List FilmRow),
        HandoffOrchestration_process invokeSummary llm catalog q =
          { agent := Handler.GeneralHandler
            answer := (LLMAgent_process (llm q)).getD "" }) ∧
    (∀ q : String,
      containsSub (lowerL q.data) "film".data = true ∨
      containsSub (lowerL q.data) "movie".data = true ∨
      (pyWords q.data).any capitalizedNonStop = true →
      routeFallback q = Handler.FilmHandler) := by
  constructor
  · intro q hcap hfilm hmovie
    have hany : (pyWords q.data).any capitalizedNonStop = false := by
      rw [List.any_eq_false]
      intro w hw
      have hnw := List.all_eq_true.mp hcap w hw
      unfold capitalizedNonStop
      simp only [Bool.not_eq_true'] at hnw
      simp [hnw]
    have hroute : routeFallback q = Handler.GeneralHandler := by
      unfold routeFallback
      rw [hfilm, hmovie, hany]
      rfl
    refine ⟨hroute, ?_⟩
    intro invokeSummary llm catalog
    unfold HandoffOrchestration_process
    rw [hroute]
  · intro q h
    unfold routeFallback
    rcases h with h | h | h <;> simp [h]

/-- C5 witness: `"what is happening"` has no capitalized word and no
film/movie keyword and goes to the general handler; the spec's World Cup
scenario question routes to FilmHandler first. -/
theorem fallback_routing_witness :
    routeFallback "what is happening" = Handler.GeneralHandler ∧
    HandoffOrchestration_process (fun _ => Except.ok "A summary.")
        (fun _ => Except.ok (SKResponse.plain "General answer."))
        alienCatalog "what is happening" =
      { agent := Handler.GeneralHandler, answer := "General answer." } ∧
    routeFallback "Who won the World Cup in 2022?" = Handler.FilmHandler := by
  have h := fallback_routing_decision.1 "what is happening" (by decide) (by decide) (by decide)
  refine ⟨h.1, ?_, ?_⟩
  · rw [h.2 (fun _ => Except.ok "A summary.")
        (fun _ => Except.ok (SKResponse.plain "General answer.")) alienCatalog]
    rfl
  · exact fallback_routing_decision.2 "Who won the World Cup in 2022?"
      (Or.inr (Or.inr (by decide)))

/-- Helper: the 2.99 rental rate prints as `2.99`. -/
theorem formatRate_299 : formatRate 299 = "2.99" := by decide

/-- C7.  A question the film handler classifies as rental intent (the
rating branch does not fire, the rental branch does) whose lookup returns
a fact with rental rate 2.99 is answered with exactly
`"{title} rents for $2.99."`; and the spec's Alien scenario produces
`"Alien rents for $2.99."` labeled FilmHandler end to end. -/
theorem rental_rate_answer_format :
    (∀ (invokeSummary : FilmRow → Except String String) (catalog : List FilmRow)
        (q t : String) (info : FilmRow),
        extractTitle q = some t →
        search_by_title_with_category catalog t = some info →
        info.rental_rate = 299 →
        ratingIntent q = false →
        rentalIntent q = true →
        SearchAgent_process invokeSummary catalog q =
          Except.ok (some (info.title ++ " rents for $2.99."))) ∧
    HandoffOrchestration_process (fun _ => Except.ok "A summary.")
        (fun _ => Except.ok (SKResponse.plain "General answer.")) alienCatalog
        "What is the rental rate for Alien?" =
      { agent := Handler.FilmHandler, answer := "Alien rents for $2.99." } := by
  constructor
  · intro invokeSummary catalog q t info hE hL hR hNR hRent
    unfold SearchAgent_process
    simp only [hE, hL, hNR, hRent, hR, Bool.false_eq_true, if_false, if_true]
    rw [formatRate_299, String.append_assoc, String.append_assoc]
    rfl
  · rfl

/-- C7 witness: the Alien scenario instantiates the universal part. -/
theorem rental_rate_answer_witness :
    SearchAgent_process (fun _ => Except.ok "A summary.") alienCatalog
        "What is the rental rate for Alien?" =
      Except.ok (some (alienRow.title ++ " rents for $2.99.")) :=
  rental_rate_answer_format.1 _ alienCatalog _ "Alien" alienRow
    (by decide) (by decide) rfl (by decide) (by decide)

/-- Helper: `LLMAgent.process` on a response with a `value` attribute, as
its defining match. -/
theorem llm_process_withValue (v : SKValue) :
    LLMAgent_process (Except.ok (SKResponse.withValue v)) =
      (match (match v with
              | SKValue.listVal elems => llmExtractList elems
              | SKValue.single it => llmExtractSingle it) with
       | none => some (llmLastResort v)
       | some a => if a = "" then some (llmLastResort v) else some a) := rfl

/-- C8.  `LLMAgent.process` always returns a string (never `None`, never
raises: the embedding returns `some` for every possible invocation
outcome), and a collaborator failure yields the apologetic error string
instead of propagating. -/
theorem llm_agent_total_and_apologetic (invokeResult : Except String SKResponse) :
    (∃ s : String, LLMAgent_process invokeResult = some s) ∧
    ∀ e : String, invokeResult = Except.error e →
      LLMAgent_process invokeResult =
        some ("I\x27m sorry, I encountered an error: " ++ e) := by
  constructor
  · match invokeResult with
    | Except.error e => exact ⟨_, rfl⟩
    | Except.ok (SKResponse.plain r) => exact ⟨r, rfl⟩
    | Except.ok (SKResponse.withValue v) =>
      rw [llm_process_withValue]
      cases hm : (match v with
                  | SKValue.listVal elems => llmExtractList elems
                  | SKValue.single it => llmExtractSingle it) with
      | none => exact ⟨_, rfl⟩
      | some a =>
        by_cases ha : a = ""
        · refine ⟨llmLastResort v, ?_⟩
          simp [ha]
        · refine ⟨a, ?_⟩
          simp [ha]
  · intro e he
    subst he
    rfl

/-- C8 witness: a failed collaborator call produces the apologetic
string. -/
theorem llm_agent_total_witness :
    LLMAgent_process (Except.error "service unavailable") =
      some ("I\x27m sorry, I encountered an error: " ++ "service unavailable") :=
  (llm_agent_total_and_apologetic (Except.error "service unavailable")).2
    "service unavailable" rfl

/-- C10 counterexample.  On a summary-intent question the film handler's
answer is whatever the AI summary collaborator returns: two invocations
identical in question and catalog but with different collaborator replies
produce different answer texts, so the handler is not a deterministic
function of the question and the catalog state alone. -/
theorem film_handler_not_deterministic :
    SearchAgent_process (fun _ => Except.ok "First summary.") alienCatalog
        "Tell me about Alien." ≠
      SearchAgent_process (fun _ => Except.ok "Second summary.") alienCatalog
        "Tell me about Alien." := by
  have h1 : SearchAgent_process (fun _ => Except.ok "First summary.") alienCatalog
      "Tell me about Alien." = Except.ok (some "First summary.") := rfl
  have h2 : SearchAgent_process (fun _ => Except.ok "Second summary.") alienCatalog
      "Tell me about Alien." = Except.ok (some "Second summary.") := rfl
  rw [h1, h2]
  simp

/-- C10 amended.  For questions answered by the deterministic formatting
branches (a rating, rental or category keyword intent) the film handler's
answer is independent of the summary collaborator, so two invocations with
the same question against an unchanged catalog yield identical text; in
the default summary branch the text equals the collaborator's reply and is
identical only when the collaborator replies identically. -/
theorem film_handler_deterministic_on_keyword_intents
    (o1 o2 : FilmRow → Except String String) (catalog : List FilmRow) (q : String)
    (h : ratingIntent q = true ∨ rentalIntent q = true ∨ categoryIntent q = true) :
    SearchAgent_process o1 catalog q = SearchAgent_process o2 catalog q := by
  unfold SearchAgent_process
  cases hE : extractTitle q with
  | none => rfl
  | some t =>
    dsimp only
    cases hL : search_by_title_with_category catalog t with
    | none => rfl
    | some info =>
      dsimp only
      by_cases h1 : ratingIntent q = true
      · simp [h1]
      · by_cases h2 : rentalIntent q = true
        · simp [h1, h2]
        · by_cases h3 : categoryIntent q = true
          · simp [h1, h2, h3]
          · rcases h with h | h | h
            · exact absurd h h1
            · exact absurd h h2
            · exact absurd h h3

/-- C10 witness: a rental-intent question gives the same answer under two
different collaborators. -/
theorem film_handler_deterministic_witness :
    SearchAgent_process (fun _ => Except.ok "First summary.") alienCatalog
        "What is the rental rate for Alien?" =
      SearchAgent_process (fun _ => Except.ok "Second summary.") alienCatalog
        "What is the rental rate for Alien?" :=
  film_handler_deterministic_on_keyword_intents _ _ alienCatalog _
    (Or.inr (Or.inl (by decide)))

/-- Helper: a successful collaborator reply makes the summary generation
succeed (with the post-processed text). -/
theorem generate_film_summary_ok (inv : FilmRow → Except String String)
    (info : FilmRow) (s : String) (h : inv info = Except.ok s) :
    ∃ u, generate_film_summary inv info = Except.ok u := by
  unfold generate_film_summary
  rw [h]
  exact ⟨_, rfl⟩

/-- C6 counterexample.  A summary-intent question whose extraction and
lookup both succeed but whose AI summary collaborator raises: the handler
re-raises (search_agent.py line 124) instead of returning an answer
string, although neither of the two `None` cases applies. -/
theorem search_agent_exception_counterexample :
    SearchAgent_process (fun _ => Except.error "LLM unavailable") alienCatalog
        "Tell me about Alien." = Except.error "LLM unavailable" ∧
    extractTitle "Tell me about Alien." = some "Alien" ∧
    search_by_title_with_category alienCatalog "Alien" = some alienRow := by
  refine ⟨rfl, by decide, by decide⟩

/-- C6 amended.  `SearchAgent.process` returns `None` exactly when title
extraction fails or the catalog lookup finds no row; in every other case
it returns a non-`None` answer string provided the AI summary collaborator
call (reached only in the default summary branch) succeeds — a collaborator
exception propagates out of the handler instead. -/
theorem search_agent_none_iff
    (invokeSummary : FilmRow → Except String String) (catalog : List FilmRow)
    (q : String) :
    (SearchAgent_process invokeSummary catalog q = Except.ok none ↔
      extractTitle q = none ∨
        ∃ t, extractTitle q = some t ∧
          search_by_title_with_category catalog t = none) ∧
    ((∀ info, ∃ s, invokeSummary info = Except.ok s) →
      ∀ t info, extractTitle q = some t →
        search_by_title_with_category catalog t = some info →
        ∃ s, SearchAgent_process invokeSummary catalog q = Except.ok (some s)) := by
  constructor
  · unfold SearchAgent_process
    cases hE : extractTitle q with
    | none => simp
    | some t =>
      dsimp only
      cases hL : search_by_title_with_category catalog t with
      | none => simp [hL]
      | some info =>
        constructor
        · intro h
          by_cases h1 : ratingIntent q = true
          · cases hr : info.rating with
            | none => simp [hL, h1, hr] at h
            | some r => simp [hL, h1, hr] at h
          · by_cases h2 : rentalIntent q = true
            · simp [hL, h1, h2] at h
            · by_cases h3 : categoryIntent q = true
              · simp [hL, h1, h2, h3] at h
              · cases hg : generate_film_summary invokeSummary info with
                | ok s => simp [hL, h1, h2, h3, hg] at h
                | error e => simp [hL, h1, h2, h3, hg] at h
        · intro h
          rcases h with h | ⟨t', ht', hl'⟩
          · exact absurd h (by simp)
          · injection ht' with ht'
            subst ht'
            rw [hL] at hl'
            exact absurd hl' (by simp)
  · intro hsum t info hE hL
    unfold SearchAgent_process
    simp only [hE, hL]
    by_cases h1 : ratingIntent q = true
    · cases hr : info.rating with
      | none =>
        exact ⟨info.title ++ " does not have a rating available.",
          by simp [h1, hr]⟩
      | some r =>
        exact ⟨info.title ++ " is rated " ++ r ++ ".", by simp [h1, hr]⟩
    · by_cases h2 : rentalIntent q = true
      · exact ⟨info.title ++ " rents for $" ++ formatRate info.rental_rate ++ ".",
          by simp [h1, h2]⟩
      · by_cases h3 : categoryIntent q = true
        · exact ⟨info.title ++ " is in the " ++ info.category ++ " category.",
            by simp [h1, h2, h3]⟩
        · obtain ⟨s, hs⟩ := hsum info
          obtain ⟨u, hu⟩ := generate_film_summary_ok invokeSummary info s hs
          exact ⟨u, by simp [h1, h2, h3, hu]⟩

/-- C6 witness: a successful collaborator on the Alien summary question
yields a non-`None` answer. -/
theorem search_agent_none_iff_witness :
    ∃ s, SearchAgent_process (fun _ => Except.ok "A short summary.") alienCatalog
        "Tell me about Alien." = Except.ok (some s) :=
  (search_agent_none_iff (fun _ => Except.ok "A short summary.") alienCatalog
      "Tell me about Alien.").2 (fun _ => ⟨"A short summary.", rfl⟩)
    "Alien" alienRow (by decide) (by decide)

/-- Helper: `takeWhile` keeps a block of satisfying elements and stops at
the first failing one. -/
theorem takeWhile_append_all {p : Char → Bool} :
    ∀ (a : List Char) {c : Char} {t : List Char},
      (∀ x ∈ a, p x = true) → p c = false → (a ++ c :: t).takeWhile p = a
  | [], c, t, _, hc => by simp [List.takeWhile_cons, hc]
  | x :: a, c, t, ha, hc => by
    have hx : p x = true := ha x (by simp)
    simp only [List.cons_append, List.takeWhile_cons, hx, if_true]
    rw [takeWhile_append_all a (fun y hy => ha y (by simp [hy])) hc]

/-- Helper: `dropWhile` drops a block of satisfying elements and stops at
the first failing one. -/
theorem dropWhile_append_all {p : Char → Bool} :
    ∀ (a : List Char) {c : Char} {t : List Char},
      (∀ x ∈ a, p x = true) → p c = false → (a ++ c :: t).dropWhile p = c :: t
  | [], c, t, _, hc => by simp [List.dropWhile_cons, hc]
  | x :: a, c, t, ha, hc => by
    have hx : p x = true := ha x (by simp)
    simp only [List.cons_append, List.dropWhile_cons, hx, if_true]
    exact dropWhile_append_all a (fun y hy => ha y (by simp [hy])) hc

/-- Helper: unfolding `findQuoted` at a leading quote. -/
theorem findQuoted_quote_cons (rest : List Char) :
    findQuoted ('"' :: rest) =
      (match rest.dropWhile (fun x => decide (x ≠ '"')) with
       | '"' :: _ =>
         if rest.takeWhile (fun x => decide (x ≠ '"')) = [] then findQuoted rest
         else some (rest.takeWhile (fun x => decide (x ≠ '"')))
       | _ => findQuoted rest) := rfl

/-- Helper: the quoted-substring regex finds the content of the first
quote pair that encloses a nonempty quote-free text. -/
theorem findQuoted_append :
    ∀ (pre : List Char) {mid post : List Char},
      '"' ∉ pre → '"' ∉ mid → mid ≠ [] →
      findQuoted (pre ++ '"' :: (mid ++ '"' :: post)) = some mid
  | [], mid, post, _, hmid, hne => by
    have hmem : ∀ y ∈ mid, (fun x => decide (x ≠ '"')) y = true := by
      intro y hy
      simp only [decide_eq_true_eq]
      exact fun he => hmid (he ▸ hy)
    have htw : (mid ++ '"' :: post).takeWhile (fun x => decide (x ≠ '"')) = mid :=
      takeWhile_append_all mid hmem (by simp)
    have hdw : (mid ++ '"' :: post).dropWhile (fun x => decide (x ≠ '"')) = '"' :: post :=
      dropWhile_append_all mid hmem (by simp)
    rw [List.nil_append, findQuoted_quote_cons, htw, hdw]
    simp [hne]
  | x :: pre, mid, post, hpre, hmid, hne => by
    have hx : ¬(x = '"') := fun he => hpre (by simp [he])
    rw [List.cons_append]
    simp only [findQuoted, if_neg hx]
    exact findQuoted_append pre (fun hy => hpre (by simp [hy])) hmid hne

/-- C4 counterexample.  In the question `He said "" then "Alien" stuff`
the first pair of double quotes encloses the empty text, but the
extraction regex cannot match an empty quoted substring: it returns the
text between the second and third quotes instead of the text between the
first pair. -/
theorem quoted_extraction_counterexample :
    extractTitle "He said \"\" then \"Alien\" stuff" = some " then " ∧
    (" then " : String) ≠ "" := ⟨by decide, by decide⟩

/-- C4 amended.  For every question whose first double quote is followed
by a nonempty quote-free text and a closing quote, title extraction
returns exactly that text — the quoted-substring rule fires first and
takes precedence over every later rule; when the first quote pair is
empty, the regex match instead starts at the next quote. -/
theorem quoted_extraction_first_pair (pre mid post : List Char)
    (hpre : '"' ∉ pre) (hmid : '"' ∉ mid) (hne : mid ≠ []) :
    extractTitleL (pre ++ '"' :: (mid ++ '"' :: post)) = some mid := by
  unfold extractTitleL
  rw [findQuoted_append pre hpre hmid hne]

/-- C4 witness: a concrete quoted title is returned verbatim. -/
theorem quoted_extraction_witness :
    extractTitleL ("Tell me about ".data ++
        '"' :: ("Alien Resurrection".data ++ '"' :: " today".data)) =
      some "Alien Resurrection".data :=
  quoted_extraction_first_pair _ _ _ (by decide) (by decide) (by decide)

/-- Helper: left-stripping whitespace cannot cross a non-whitespace
character; the kept prefix shrinks to some subset of itself. -/
theorem pyLStrip_keep (a : List Char) (c : Char) (t : List Char)
    (hc : pyIsSpace c = false) :
    ∃ a', (∀ y ∈ a', y ∈ a) ∧ pyLStrip (a ++ c :: t) = a' ++ c :: t := by
  unfold pyLStrip
  rw [List.dropWhile_append]
  by_cases he : (a.dropWhile pyIsSpace).isEmpty = true
  · rw [if_pos he, List.dropWhile_cons, if_neg (by simp [hc])]
    exact ⟨[], by simp, rfl⟩
  · rw [if_neg he]
    exact ⟨a.dropWhile pyIsSpace,
      fun y hy => List.Sublist.mem hy (List.dropWhile_sublist _), rfl⟩

/-- Helper: right-stripping whitespace cannot cross a non-whitespace
character; the kept suffix shrinks to some subset of itself. -/
theorem pyRStrip_keep (x : List Char) (c : Char) (b : List Char)
    (hc : pyIsSpace c = false) :
    ∃ b', (∀ y ∈ b', y ∈ b) ∧ pyRStrip (x ++ c :: b) = x ++ c :: b' := by
  unfold pyRStrip
  have hrev : (x ++ c :: b).reverse = b.reverse ++ c :: x.reverse := by
    rw [List.reverse_append, List.reverse_cons, List.append_assoc]
    rfl
  rw [hrev, List.dropWhile_append]
  by_cases he : (b.reverse.dropWhile pyIsSpace).isEmpty = true
  · rw [if_pos he, List.dropWhile_cons, if_neg (by simp [hc])]
    refine ⟨[], by simp, ?_⟩
    rw [List.reverse_cons, List.reverse_reverse]
  · rw [if_neg he]
    refine ⟨(b.reverse.dropWhile pyIsSpace).reverse, ?_, ?_⟩
    · intro y hy
      rw [List.mem_reverse] at hy
      exact List.mem_reverse.mp (List.Sublist.mem hy (List.dropWhile_sublist _))
    · rw [List.reverse_append, List.reverse_cons, List.reverse_reverse,
        List.append_assoc]
      rfl

/-- Helper: `str.strip()` preserves the two-brace decomposition. -/
theorem pyStrip_twoBrace {s mid : List Char} (h : TwoBrace s mid) :
    TwoBrace (pyStrip s) mid := by
  obtain ⟨hm, a, b, ha, hb, rfl⟩ := h
  obtain ⟨a', ha', hL⟩ := pyLStrip_keep a '\x7b' (mid ++ '\x7d' :: b) (by decide)
  unfold pyStrip
  rw [hL]
  have hre : a' ++ '\x7b' :: (mid ++ '\x7d' :: b) =
      (a' ++ '\x7b' :: mid) ++ '\x7d' :: b := by
    simp [List.append_assoc]
  rw [hre]
  obtain ⟨b', hb', hR⟩ := pyRStrip_keep (a' ++ '\x7b' :: mid) '\x7d' b (by decide)
  rw [hR]
  refine ⟨hm, a', b',
    ⟨fun hmem => ha.1 (ha' _ hmem), fun hmem => ha.2 (ha' _ hmem)⟩,
    ⟨fun hmem => hb.1 (hb' _ hmem), fun hmem => hb.2 (hb' _ hmem)⟩, ?_⟩
  simp [List.append_assoc]

/-- Helper: a Boolean prefix longer than the context before `c` must
contain `c`. -/
theorem prefix_short_mem :
    ∀ (p a : List Char) {c : Char} {t : List Char},
      p.isPrefixOf (a ++ c :: t) = true → a.length < p.length → c ∈ p
  | [], a, c, t, _, hl => absurd hl (by simp)
  | q :: ps, [], c, t, hp, _ => by
    simp only [List.nil_append, List.isPrefixOf, Bool.and_eq_true, beq_iff_eq] at hp
    simp [hp.1]
  | q :: ps, x :: a, c, t, hp, hl => by
    simp only [List.cons_append, List.isPrefixOf, Bool.and_eq_true] at hp
    have := prefix_short_mem ps a hp.2 (by simpa using Nat.lt_of_succ_lt_succ (by simpa using hl))
    simp [this]

/-- Helper: removing a leading markdown fence preserves the two-brace
decomposition (the cut characters all live in the brace-free prefix,
because the fence text contains no brace). -/
theorem stripFencePrefix_twoBrace {s mid : List Char} (h : TwoBrace s mid) :
    TwoBrace (stripFencePrefix s) mid := by
  obtain ⟨hm, a, b, ha, hb, rfl⟩ := h
  unfold stripFencePrefix
  by_cases h7 : "```json".data.isPrefixOf (a ++ '\x7b' :: (mid ++ '\x7d' :: b)) = true
  · rw [if_pos h7]
    have hlen : 7 ≤ a.length := by
      by_contra hlt
      push_neg at hlt
      have hmem : '\x7b' ∈ "```json".data :=
        prefix_short_mem _ a h7 (by simpa using hlt)
      exact absurd hmem (by decide)
    rw [List.drop_append_of_le_length hlen]
    exact pyStrip_twoBrace ⟨hm, a.drop 7, b,
      ⟨fun hmem => ha.1 (List.Sublist.mem hmem (List.drop_sublist _ _)),
       fun hmem => ha.2 (List.Sublist.mem hmem (List.drop_sublist _ _))⟩, hb, rfl⟩
  · rw [if_neg h7]
    by_cases h3 : "```".data.isPrefixOf (a ++ '\x7b' :: (mid ++ '\x7d' :: b)) = true
    · rw [if_pos h3]
      have hlen : 3 ≤ a.length := by
        by_contra hlt
        push_neg at hlt
        have hmem : '\x7b' ∈ "```".data :=
          prefix_short_mem _ a h3 (by simpa using hlt)
        exact absurd hmem (by decide)
      rw [List.drop_append_of_le_length hlen]
      exact pyStrip_twoBrace ⟨hm, a.drop 3, b,
        ⟨fun hmem => ha.1 (List.Sublist.mem hmem (List.drop_sublist _ _)),
         fun hmem => ha.2 (List.Sublist.mem hmem (List.drop_sublist _ _))⟩, hb, rfl⟩
    · rw [if_neg h3]
      exact ⟨hm, a, b, ha, hb, rfl⟩

/-- Helper: removing a trailing markdown fence preserves the two-brace
decomposition (the cut characters all live in the brace-free suffix). -/
theorem stripFenceSuffix_twoBrace {s mid : List Char} (h : TwoBrace s mid) :
    TwoBrace (stripFenceSuffix s) mid := by
  obtain ⟨hm, a, b, ha, hb, rfl⟩ := h
  unfold stripFenceSuffix
  by_cases h3 : "```".data.isSuffixOf (a ++ '\x7b' :: (mid ++ '\x7d' :: b)) = true
  · rw [if_pos h3]
    have h3' : "```".data.reverse.isPrefixOf
        (b.reverse ++ '\x7d' :: (mid.reverse ++ '\x7b' :: a.reverse)) = true := by
      have hrev : (a ++ '\x7b' :: (mid ++ '\x7d' :: b)).reverse =
          b.reverse ++ '\x7d' :: (mid.reverse ++ '\x7b' :: a.reverse) := by
        simp [List.reverse_append, List.reverse_cons, List.append_assoc]
      rw [← hrev]
      exact h3
    have hlen : 3 ≤ b.length := by
      by_contra hlt
      push_neg at hlt
      have hmem : '\x7d' ∈ "```".data.reverse :=
        prefix_short_mem _ b.reverse h3' (by simpa using hlt)
      exact absurd hmem (by decide)
    have hx : a ++ '\x7b' :: (mid ++ '\x7d' :: b) =
        (a ++ '\x7b' :: (mid ++ ['\x7d'])) ++ b := by
      simp [List.append_assoc]
    rw [hx]
    have hlen2 : ((a ++ '\x7b' :: (mid ++ ['\x7d'])) ++ b).length - 3 =
        (a ++ '\x7b' :: (mid ++ ['\x7d'])).length + (b.length - 3) := by
      simp only [List.length_append]
      omega
    rw [hlen2, List.take_append]
    refine pyStrip_twoBrace ⟨hm, a, b.take (b.length - 3), ha,
      ⟨fun hmem => hb.1 (List.Sublist.mem hmem (List.take_sublist _ _)),
       fun hmem => hb.2 (List.Sublist.mem hmem (List.take_sublist _ _))⟩, ?_⟩
    simp [List.append_assoc]
  · rw [if_neg h3]
    exact ⟨hm, a, b, ha, hb, rfl⟩

/-- Helper: the title-object search finds nothing in text with no opening
brace. -/
theorem titleObjSearch_no_open :
    ∀ (l : List Char), '\x7b' ∉ l → titleObjSearch l = none
  | [], _ => rfl
  | c :: rest, h => by
    have hc : ¬(c = '\x7b') := fun he => h (by simp [he])
    simp only [titleObjSearch, if_neg hc]
    exact titleObjSearch_no_open rest (fun hmem => h (by simp [hmem]))

/-- Helper: unfolding `titleObjSearch` at an opening brace. -/
theorem titleObjSearch_open_cons (rest : List Char) :
    titleObjSearch ('\x7b' :: rest) =
      (match rest.dropWhile (fun x => decide (x ≠ '\x7b' ∧ x ≠ '\x7d')) with
       | '\x7d' :: _ =>
         if containsSub (rest.takeWhile (fun x => decide (x ≠ '\x7b' ∧ x ≠ '\x7d')))
             "\"title\"".data = true then
           some ('\x7b' :: rest.takeWhile (fun x => decide (x ≠ '\x7b' ∧ x ≠ '\x7d')) ++
             ['\x7d'])
         else titleObjSearch rest
       | _ => titleObjSearch rest) := rfl

/-- Helper: on a two-brace reply the title-object regex either fails or
returns exactly the brace-delimited payload. -/
theorem titleObjSearch_twoBrace :
    ∀ (a : List Char) {mid b : List Char},
      ('\x7b' ∉ a ∧ '\x7d' ∉ a) → ('\x7b' ∉ mid ∧ '\x7d' ∉ mid) →
      ('\x7b' ∉ b ∧ '\x7d' ∉ b) →
      titleObjSearch (a ++ '\x7b' :: (mid ++ '\x7d' :: b)) = none ∨
      titleObjSearch (a ++ '\x7b' :: (mid ++ '\x7d' :: b)) =
        some ('\x7b' :: (mid ++ ['\x7d']))
  | [], mid, b, _, hmid, hb => by
    rw [List.nil_append]
    have hmem : ∀ y ∈ mid, (fun x => decide (x ≠ '\x7b' ∧ x ≠ '\x7d')) y = true := by
      intro y hy
      simp only [decide_eq_true_eq]
      exact ⟨fun he => hmid.1 (he ▸ hy), fun he => hmid.2 (he ▸ hy)⟩
    have htw : (mid ++ '\x7d' :: b).takeWhile
        (fun x => decide (x ≠ '\x7b' ∧ x ≠ '\x7d')) = mid :=
      takeWhile_append_all mid hmem (by simp)
    have hdw : (mid ++ '\x7d' :: b).dropWhile
        (fun x => decide (x ≠ '\x7b' ∧ x ≠ '\x7d')) = '\x7d' :: b :=
      dropWhile_append_all mid hmem (by simp)
    rw [titleObjSearch_open_cons, htw, hdw]
    by_cases hct : containsSub mid "\"title\"".data = true
    · right
      simp [hct]
    · left
      simp only [if_neg hct]
      apply titleObjSearch_no_open
      intro hmem2
      rcases List.mem_append.mp hmem2 with hmem2 | hmem2
      · exact hmid.1 hmem2
      · rcases List.mem_cons.mp hmem2 with hmem2 | hmem2
        · exact absurd hmem2 (by decide)
        · exact hb.1 hmem2
  | x :: a, mid, b, ha, hmid, hb => by
    have hx : ¬(x = '\x7b') := fun he => ha.1 (by simp [he])
    rw [List.cons_append]
    simp only [titleObjSearch, if_neg hx]
    exact titleObjSearch_twoBrace a
      ⟨fun hmem => ha.1 (by simp [hmem]), fun hmem => ha.2 (by simp [hmem])⟩ hmid hb

/-- Helper: stripping the brace-delimited payload is the identity. -/
theorem pyStrip_payload (mid : List Char) :
    pyStrip ('\x7b' :: (mid ++ ['\x7d'])) = '\x7b' :: (mid ++ ['\x7d']) := by
  unfold pyStrip pyLStrip
  rw [List.dropWhile_cons, if_neg (by decide : ¬(pyIsSpace '\x7b' = true))]
  have h2 : '\x7b' :: (mid ++ ['\x7d']) =
      ('\x7b' :: mid) ++ '\x7d' :: ([] : List Char) := by simp
  rw [h2]
  obtain ⟨b', hb', heq⟩ := pyRStrip_keep ('\x7b' :: mid) '\x7d' [] (by decide)
  have hbnil : b' = [] := by
    cases b' with
    | nil => rfl
    | cons y ys => exact absurd (hb' y (by simp)) (List.not_mem_nil y)
  rw [heq, hbnil]

/-- Helper: the last element of a nonempty list is a member. -/
theorem getLast?_mem_of_ne_nil :
    ∀ (l : List Char), l ≠ [] → ∃ y, l.getLast? = some y ∧ y ∈ l
  | [], h => absurd rfl h
  | [x], _ => ⟨x, rfl, by simp⟩
  | x :: y :: t, _ => by
    obtain ⟨z, hz, hmem⟩ := getLast?_mem_of_ne_nil (y :: t) (by simp)
    exact ⟨z, by rw [List.getLast?_cons_cons, hz], List.mem_cons_of_mem x hmem⟩

/-- Helper: the first-opening-brace cut exposes the payload. -/
theorem cutToOpen_append (a mid b : List Char) (ha : '\x7b' ∉ a) :
    cutToOpen (a ++ '\x7b' :: (mid ++ '\x7d' :: b)) =
      '\x7b' :: (mid ++ '\x7d' :: b) := by
  unfold cutToOpen
  cases a with
  | nil =>
    rw [List.nil_append,
      if_pos (show ('\x7b' :: (mid ++ '\x7d' :: b)).head? = some '\x7b' from rfl)]
  | cons x a' =>
    have hx : ¬(x = '\x7b') := fun he => ha (by simp [he])
    rw [List.cons_append]
    rw [if_neg (by simp [List.head?_cons, hx])]
    rw [if_pos ?hc]
    case hc =>
      show List.elem '\x7b' _ = true
      exact List.elem_iff.mpr (by simp)
    exact dropWhile_append_all (x :: a')
      (fun y hy => by
        simp only [decide_eq_true_eq]
        exact fun he => ha (he ▸ hy))
      (by simp)

/-- Helper: the last-closing-brace cut trims the brace-free tail. -/
theorem cutToClose_payload (mid b : List Char) (hb : '\x7d' ∉ b) :
    cutToClose ('\x7b' :: (mid ++ '\x7d' :: b)) = '\x7b' :: (mid ++ ['\x7d']) := by
  unfold cutToClose
  cases b with
  | nil =>
    rw [if_pos ?hl]
    case hl =>
      have h2 : '\x7b' :: (mid ++ '\x7d' :: ([] : List Char)) =
          ('\x7b' :: mid) ++ ['\x7d'] := by simp
      rw [h2, List.getLast?_concat]
  | cons y b' =>
    obtain ⟨z, hz, hzmem⟩ := getLast?_mem_of_ne_nil (y :: b') (by simp)
    have hlast : ('\x7b' :: (mid ++ '\x7d' :: y :: b')).getLast? = some z := by
      have h2 : '\x7b' :: (mid ++ '\x7d' :: y :: b') =
          ('\x7b' :: (mid ++ ['\x7d'])) ++ (y :: b') := by simp
      rw [h2, List.getLast?_append, hz]
      rfl
    rw [hlast, if_neg (by
      simp only [Option.some.injEq]
      exact fun he => hb (he ▸ hzmem))]
    rw [if_pos ?hc2]
    case hc2 =>
      show List.elem '\x7d' _ = true
      exact List.elem_iff.mpr (by simp)
    unfold keepThroughLast
    have hrev : ('\x7b' :: (mid ++ '\x7d' :: y :: b')).reverse =
        (y :: b').reverse ++ '\x7d' :: (mid.reverse ++ ['\x7b']) := by
      simp [List.reverse_cons, List.reverse_append, List.append_assoc]
    rw [hrev]
    rw [dropWhile_append_all (y :: b').reverse
      (fun w hw => by
        simp only [decide_eq_true_eq]
        exact fun he => hb (he ▸ List.mem_reverse.mp hw))
      (by simp)]
    rw [List.reverse_cons, List.reverse_append, List.reverse_reverse,
      List.reverse_cons, List.reverse_nil, List.nil_append]
    simp

/-- Helper: from the title-regex step on, a two-brace reply reduces to its
payload. -/
theorem extractJson_tail {r3 mid : List Char} (h : TwoBrace r3 mid) :
    pyStrip (cutToClose (cutToOpen
      (match titleObjSearch r3 with
       | some m => m
       | none => r3))) = '\x7b' :: (mid ++ ['\x7d']) := by
  obtain ⟨hm, a, b, ha, hb, hs⟩ := h
  subst hs
  rcases titleObjSearch_twoBrace a ha hm hb with hcase | hcase
  · rw [hcase]
    rw [cutToOpen_append a mid b ha.1, cutToClose_payload mid b hb.2,
      pyStrip_payload]
  · rw [hcase]
    have hopen : cutToOpen ('\x7b' :: (mid ++ ['\x7d'])) =
        '\x7b' :: (mid ++ ['\x7d']) := by
      unfold cutToOpen
      rw [if_pos (show ('\x7b' :: (mid ++ ['\x7d'])).head? = some '\x7b' from rfl)]
    have hclose : cutToClose ('\x7b' :: (mid ++ ['\x7d'])) =
        '\x7b' :: (mid ++ ['\x7d']) := by
      have h2 : '\x7b' :: (mid ++ ['\x7d']) =
          '\x7b' :: (mid ++ '\x7d' :: ([] : List Char)) := by simp
      rw [h2, cutToClose_payload mid [] (by simp)]
    rw [hopen, hclose, pyStrip_payload]

/-- C9.  For every reply whose JSON payload (a brace-delimited brace-free
body) is surrounded by brace-free extraneous text — markdown code fences
included, since the fence stripping only shortens that surrounding text —
the defensive pipeline of `get_film_summary` returns exactly the payload,
so the subsequent `json.loads` parses precisely the embedded object, as if
the collaborator had returned it bare. -/
theorem defensive_json_extraction (pre mid post : List Char)
    (hpre : '\x7b' ∉ pre ∧ '\x7d' ∉ pre)
    (hmid : '\x7b' ∉ mid ∧ '\x7d' ∉ mid)
    (hpost : '\x7b' ∉ post ∧ '\x7d' ∉ post) :
    extractJsonText (pre ++ '\x7b' :: (mid ++ '\x7d' :: post)) =
      '\x7b' :: (mid ++ ['\x7d']) := by
  have h0 : TwoBrace (pre ++ '\x7b' :: (mid ++ '\x7d' :: post)) mid :=
    ⟨hmid, pre, post, hpre, hpost, rfl⟩
  exact extractJson_tail
    (stripFenceSuffix_twoBrace (stripFencePrefix_twoBrace (pyStrip_twoBrace h0)))

/-- C9 witness: the spec's malformed classifier reply
`Sure! {"agent": "FilmHandler"} cool` yields exactly the embedded
object. -/
theorem defensive_json_extraction_witness :
    extractJsonTextS "Sure! \x7b\"agent\": \"FilmHandler\"\x7d cool" =
      "\x7b\"agent\": \"FilmHandler\"\x7d" := by
  have hsplit : ("Sure! \x7b\"agent\": \"FilmHandler\"\x7d cool").data =
      "Sure! ".data ++ '\x7b' :: ("\"agent\": \"FilmHandler\"".data ++
        '\x7d' :: " cool".data) := by decide
  have h := defensive_json_extraction "Sure! ".data
    "\"agent\": \"FilmHandler\"".data " cool".data
    (by decide) (by decide) (by decide)
  unfold extractJsonTextS
  rw [hsplit, h]
  decide
